import Mathlib

/-!
Shallow embedding of the canvas roulette/turntable animator
(`src/components/RouletteWheel.tsx` of the vinyl-roulette repository),
together with proofs of the spec's testable properties.

JavaScript number arithmetic is modelled by exact real arithmetic (`ℝ`);
`Math.PI` is `Real.pi`, `Math.floor` is `Int.floor`, and the JS `%`
operator (a remainder whose quotient is truncated toward zero) is `jsMod`
below.  Times are wall-clock milliseconds, as delivered by
`performance.now` / `requestAnimationFrame`.
-/

namespace VinylRoulette

/-! ## JavaScript remainder arithmetic -/

/-- Truncation toward zero, as used by the JavaScript `%` operator on
numbers (`Math.trunc` of the quotient). -/
noncomputable def jsTrunc (x : ℝ) : ℤ := if 0 ≤ x then ⌊x⌋ else ⌈x⌉

/-- The JavaScript `%` operator on numbers: `a % b = a - b * trunc (a / b)`,
so the result carries the sign of `a`. -/
noncomputable def jsMod (a b : ℝ) : ℝ := a - b * jsTrunc (a / b)

/-- The `((a % b) + b) % b` idiom the component uses to obtain a
representative in `[0, b)`. -/
noncomputable def posMod (a b : ℝ) : ℝ := jsMod (jsMod a b + b) b

theorem jsTrunc_of_nonneg {x : ℝ} (h : 0 ≤ x) : jsTrunc x = ⌊x⌋ := if_pos h

theorem jsTrunc_of_neg {x : ℝ} (h : x < 0) : jsTrunc x = ⌈x⌉ :=
  if_neg (not_le.mpr h)

/-- The value of `jsMod` in terms of the fractional part: it is `b * Int.fract (a / b)`
when the quotient is nonnegative or exact, and `b * (Int.fract (a / b) - 1)`
otherwise. -/
theorem jsMod_eq_cases {a b : ℝ} (hb : b ≠ 0) :
    jsMod a b = b * Int.fract (a / b) ∨
      (jsMod a b = b * (Int.fract (a / b) - 1) ∧ Int.fract (a / b) ≠ 0) := by
  have hab : b * (a / b) = a := mul_div_cancel₀ a hb
  by_cases h : 0 ≤ a / b
  · left
    rw [jsMod, jsTrunc_of_nonneg h, Int.fract]
    nlinarith [hab]
  · push_neg at h
    by_cases hf : Int.fract (a / b) = 0
    · left
      obtain ⟨z, hz⟩ : ∃ z : ℤ, a / b = (z : ℝ) := by
        rcases (Int.fract_eq_iff.mp hf) with ⟨-, -, z, hz⟩
        exact ⟨z, by linarith⟩
      rw [jsMod, jsTrunc_of_neg h, hf, mul_zero, hz, Int.ceil_intCast]
      rw [hz] at hab
      linarith
    · right
      refine ⟨?_, hf⟩
      have hceil : (⌈a / b⌉ : ℝ) = a / b + 1 - Int.fract (a / b) :=
        Int.ceil_eq_add_one_sub_fract hf
      rw [jsMod, jsTrunc_of_neg h, hceil]
      nlinarith [hab]

theorem posMod_eq_fract {b : ℝ} (hb : 0 < b) (a : ℝ) :
    posMod a b = b * Int.fract (a / b) := by
  have hb0 : b ≠ 0 := ne_of_gt hb
  have hf0 : 0 ≤ Int.fract (a / b) := Int.fract_nonneg _
  have hf1 : Int.fract (a / b) < 1 := Int.fract_lt_one _
  rcases jsMod_eq_cases (a := a) hb0 with h | ⟨h, hfr⟩
  · -- `jsMod a b = b * fract (a/b)` lies in `[0, b)`; adding `b` and taking
    -- `jsMod` again subtracts exactly one copy of `b`.
    rw [posMod, h]
    have hq : (b * Int.fract (a / b) + b) / b = Int.fract (a / b) + 1 := by
      field_simp
      ring
    have hq0 : (0 : ℝ) ≤ (b * Int.fract (a / b) + b) / b := by
      rw [hq]; linarith
    rw [jsMod, jsTrunc_of_nonneg hq0, hq]
    have hfloor : ⌊Int.fract (a / b) + (1 : ℝ)⌋ = 1 := by
      rw [Int.floor_eq_iff]
      constructor <;> push_cast <;> linarith
    rw [hfloor]
    push_cast
    ring
  · -- negative-quotient case: `jsMod a b = b * (fract (a/b) - 1)` lies in
    -- `(-b, 0)`; adding `b` lands in `(0, b)` and the second `jsMod` is the
    -- identity there.
    rw [posMod, h]
    have hf0' : 0 < Int.fract (a / b) := lt_of_le_of_ne hf0 (Ne.symm hfr)
    have hq : (b * (Int.fract (a / b) - 1) + b) / b = Int.fract (a / b) := by
      field_simp
      ring
    have hq0 : (0 : ℝ) ≤ (b * (Int.fract (a / b) - 1) + b) / b := by
      rw [hq]; linarith
    rw [jsMod, jsTrunc_of_nonneg hq0, hq]
    have hfloor : ⌊Int.fract (a / b)⌋ = 0 := by
      rw [Int.floor_eq_iff]
      constructor <;> push_cast <;> linarith
    rw [hfloor]
    push_cast
    ring

theorem posMod_nonneg {b : ℝ} (hb : 0 < b) (a : ℝ) : 0 ≤ posMod a b := by
  rw [posMod_eq_fract hb]
  exact mul_nonneg (le_of_lt hb) (Int.fract_nonneg _)

theorem posMod_lt {b : ℝ} (hb : 0 < b) (a : ℝ) : posMod a b < b := by
  rw [posMod_eq_fract hb]
  nlinarith [Int.fract_lt_one (a / b)]

/-- Shifting by an integer multiple of the modulus leaves `posMod` fixed. -/
theorem posMod_add_int_mul {b : ℝ} (hb : 0 < b) (a : ℝ) (k : ℤ) :
    posMod (a + b * k) b = posMod a b := by
  have hb0 : b ≠ 0 := ne_of_gt hb
  rw [posMod_eq_fract hb, posMod_eq_fract hb]
  have : (a + b * k) / b = a / b + k := by field_simp; ring
  rw [this, Int.fract_add_int]

theorem posMod_eq_self {a b : ℝ} (hb : 0 < b) (h0 : 0 ≤ a) (h1 : a < b) :
    posMod a b = a := by
  have hb0 : b ≠ 0 := ne_of_gt hb
  rw [posMod_eq_fract hb]
  have : Int.fract (a / b) = a / b := by
    rw [Int.fract_eq_self]
    constructor
    · positivity
    · rw [div_lt_one hb]; exact h1
  rw [this]
  field_simp

theorem posMod_self_sub_floor {b : ℝ} (hb : 0 < b) (a : ℝ) :
    posMod a b = a - b * ⌊a / b⌋ := by
  have hb0 : b ≠ 0 := ne_of_gt hb
  rw [posMod_eq_fract hb, Int.fract]
  field_simp

/-! ## Determinate-spin targeting and index resolution
(`RouletteWheel.tsx`, spin effect lines 813-827 and the `stoppedIndex`
resolution lines 905-916). -/

/-- The fixed needle angle: `Math.PI / 6`, the 5 o'clock position. -/
noncomputable def needleAngle : ℝ := Real.pi / 6

/-- Source: `arcSize = (2 * Math.PI) / numSegments`. -/
noncomputable def arcSize (numSegments : ℕ) : ℝ := 2 * Real.pi / numSegments

/-- Source: `winningSegmentAngle = prizeNumber * arcSize + arcSize / 2`: the angular
center of the target segment before the rotation offset is applied. -/
noncomputable def winningSegmentAngle (numSegments prizeNumber : ℕ) : ℝ :=
  prizeNumber * arcSize numSegments + arcSize numSegments / 2

/-- Source: `extraSpins = (3 + Math.random() * 2) * 2 * Math.PI`, with the random
draw passed in as `rand`. -/
noncomputable def extraSpins (rand : ℝ) : ℝ := (3 + rand * 2) * (2 * Real.pi)

/-- Closed form of the loop
`while (targetRotation < bound) targetRotation += step` started at `base`:
the loop adds `step` exactly `max 0 ⌈(bound - base) / step⌉` times. -/
noncomputable def bumpUntil (base bound step : ℝ) : ℝ :=
  base + step * (max 0 ⌈(bound - base) / step⌉ : ℤ)

/-- The loop leaves `base` untouched when the guard fails at entry. -/
theorem bumpUntil_of_le {base bound step : ℝ} (hstep : 0 < step)
    (h : bound ≤ base) : bumpUntil base bound step = base := by
  have hq : (bound - base) / step ≤ 0 :=
    div_nonpos_iff.mpr (Or.inr ⟨by linarith, le_of_lt hstep⟩)
  have hc : ⌈(bound - base) / step⌉ ≤ 0 := Int.ceil_le.mpr (by push_cast; linarith)
  have hmax : max 0 ⌈(bound - base) / step⌉ = 0 := max_eq_left hc
  rw [bumpUntil, hmax]
  push_cast
  ring

/-- After the loop, the target is at least the bound (the spin really does
exceed the start rotation by the extra-spin amount). -/
theorem bumpUntil_ge {base bound step : ℝ} (hstep : 0 < step) :
    bound ≤ bumpUntil base bound step := by
  have hs0 : step ≠ 0 := ne_of_gt hstep
  have h1 : (bound - base) / step ≤ ((max 0 ⌈(bound - base) / step⌉ : ℤ) : ℝ) := by
    refine le_trans (Int.le_ceil _) ?_
    exact_mod_cast le_max_right 0 ⌈(bound - base) / step⌉
  have h2 : step * ((bound - base) / step) = bound - base := by
    field_simp
  rw [bumpUntil]
  nlinarith [mul_le_mul_of_nonneg_left h1 (le_of_lt hstep)]

/-- The loop's result differs from its start value by an integer number of
whole turns of `step`. -/
theorem bumpUntil_eq_add_int (base bound step : ℝ) :
    ∃ k : ℤ, bumpUntil base bound step = base + step * k :=
  ⟨max 0 ⌈(bound - base) / step⌉, rfl⟩

/-- The precomputed final rotation of a roulette-mode spin
(`targetRotation`, lines 814-825): start from
`needleAngle - winningSegmentAngle` and add whole turns until it exceeds
`startRotation + extraSpins`. -/
noncomputable def targetRotation (numSegments prizeNumber : ℕ)
    (startRotation rand : ℝ) : ℝ :=
  bumpUntil (needleAngle - winningSegmentAngle numSegments prizeNumber)
    (startRotation + extraSpins rand) (2 * Real.pi)

/-- Source: `spinDuration = 4 + Math.random() * 1` seconds (line 826). -/
noncomputable def rouletteSpinDuration (rand : ℝ) : ℝ := 4 + rand * 1

/-- The index-resolution rule (lines 907-914): normalize the rotation into
`[0, 2π)`, form the needle-relative angle in `[0, 2π)`, and take
`Math.floor(relativeAngle / arcSize) % numSegments`.  The JS `%` on these
integral values is the truncated remainder `Int.tmod`. -/
noncomputable def resolveIndex (numSegments : ℕ) (rotation : ℝ) : ℤ :=
  Int.tmod
    ⌊posMod (needleAngle - posMod rotation (2 * Real.pi)) (2 * Real.pi) /
      arcSize numSegments⌋
    numSegments

theorem two_pi_pos : (0 : ℝ) < 2 * Real.pi := by positivity

theorem winningSegmentAngle_nonneg (N T : ℕ) (hN : 0 < N) :
    0 ≤ winningSegmentAngle N T := by
  have hpi : (0 : ℝ) < Real.pi := Real.pi_pos
  have hN' : (0 : ℝ) < N := by exact_mod_cast hN
  have harc : 0 < arcSize N := by
    rw [arcSize]; positivity
  rw [winningSegmentAngle]
  positivity

theorem winningSegmentAngle_lt (N T : ℕ) (hN : 0 < N) (hT : T < N) :
    winningSegmentAngle N T < 2 * Real.pi := by
  have hpi : (0 : ℝ) < Real.pi := Real.pi_pos
  have hN' : (0 : ℝ) < N := by exact_mod_cast hN
  have hT' : (T : ℝ) + 1 ≤ N := by exact_mod_cast hT
  have hrw : winningSegmentAngle N T = ((T : ℝ) + 1 / 2) * (2 * Real.pi / N) := by
    rw [winningSegmentAngle, arcSize]
    ring
  rw [hrw]
  have hTN : (T : ℝ) + 1 / 2 < N := by linarith
  calc ((T : ℝ) + 1 / 2) * (2 * Real.pi / N)
      < (N : ℝ) * (2 * Real.pi / N) := by
        apply mul_lt_mul_of_pos_right hTN
        positivity
    _ = 2 * Real.pi := by field_simp

/-- Core round-trip fact: any rotation congruent (mod `2π`) to
`needleAngle - winningSegmentAngle N T` resolves back to index `T`. -/
theorem resolveIndex_of_congruent (N T : ℕ) (hN : 0 < N) (hT : T < N)
    (rotation : ℝ)
    (hrot : ∃ m : ℤ, rotation =
      needleAngle - winningSegmentAngle N T + 2 * Real.pi * m) :
    resolveIndex N rotation = T := by
  obtain ⟨m, hm⟩ := hrot
  have h2pi := two_pi_pos
  have hpi : (0 : ℝ) < Real.pi := Real.pi_pos
  have hN' : (0 : ℝ) < N := by exact_mod_cast hN
  set x : ℝ := needleAngle - winningSegmentAngle N T with hx
  -- the normalized rotation is congruent to `x` modulo `2π`
  have hnorm : posMod rotation (2 * Real.pi) = posMod x (2 * Real.pi) := by
    rw [hm]
    exact posMod_add_int_mul h2pi x m
  -- so the needle-relative angle is `winningSegmentAngle` plus whole turns
  have hrel : needleAngle - posMod rotation (2 * Real.pi) =
      winningSegmentAngle N T + 2 * Real.pi * ⌊x / (2 * Real.pi)⌋ := by
    rw [hnorm, posMod_self_sub_floor h2pi, hx]
    ring
  have hW0 : 0 ≤ winningSegmentAngle N T := winningSegmentAngle_nonneg N T hN
  have hW1 : winningSegmentAngle N T < 2 * Real.pi :=
    winningSegmentAngle_lt N T hN hT
  have hrel2 : posMod (needleAngle - posMod rotation (2 * Real.pi))
      (2 * Real.pi) = winningSegmentAngle N T := by
    rw [hrel, posMod_add_int_mul h2pi, posMod_eq_self h2pi hW0 hW1]
  have harc0 : arcSize N ≠ 0 := by
    rw [arcSize]; positivity
  have hdiv : winningSegmentAngle N T / arcSize N = (T : ℝ) + 1 / 2 := by
    rw [winningSegmentAngle]
    field_simp
    ring
  have hfloor : ⌊winningSegmentAngle N T / arcSize N⌋ = (T : ℤ) := by
    rw [hdiv, Int.floor_eq_iff]
    constructor <;> push_cast <;> linarith
  rw [resolveIndex, hrel2, hfloor]
  rw [Int.tmod_eq_emod (by exact_mod_cast Nat.zero_le T)
    (by exact_mod_cast Nat.zero_le N)]
  exact Int.emod_eq_of_lt (by exact_mod_cast Nat.zero_le T)
    (by exact_mod_cast hT)

/-- C1: for segment count `N > 0` and any target index `T ∈ [0, N)`, a
determinate (roulette-mode) spin to `T` — from any start rotation and any
random extra-spin draw — snaps to a final rotation that the index-resolution
rule (needle angle `π/6`, arc size `2π/N`, normalize mod `2π`, floor, mod
`N`) maps back to `T`. -/
theorem determinate_spin_round_trip (N T : ℕ) (hN : 0 < N) (hT : T < N)
    (startRotation rand : ℝ) :
    resolveIndex N (targetRotation N T startRotation rand) = T := by
  apply resolveIndex_of_congruent N T hN hT
  obtain ⟨k, hk⟩ := bumpUntil_eq_add_int
    (needleAngle - winningSegmentAngle N T)
    (startRotation + extraSpins rand) (2 * Real.pi)
  exact ⟨k, by rw [targetRotation, hk]⟩

/-- Witness for C1 at the spec's scenario: 12 segments, target index 5. -/
theorem determinate_spin_round_trip_witness :
    0 < 12 ∧ 5 < 12 ∧ resolveIndex 12 (targetRotation 12 5 0 (1 / 2)) = 5 :=
  ⟨by norm_num, by norm_num,
    determinate_spin_round_trip 12 5 (by norm_num) (by norm_num) 0 (1 / 2)⟩

/-! ## The animator state machine

The component's mutable refs and React state, threaded explicitly.  Times
are the millisecond values handed to `requestAnimationFrame` callbacks. -/

structure WheelState where
  rotation : ℝ
  isSpinning : Bool
  isStoppingManually : Bool
  startRotation : ℝ
  startTime : ℝ
  /-- the `lastTime` local of the spin effect (line 854); one per session,
  initialised to the effect's `performance.now()` -/
  lastTime : ℝ
  stopStartTime : ℝ
  tonearmAngle : ℝ
  tonearmAnimating : Bool
  tonearmStartTime : ℝ
  tonearmDownTriggered : Bool

/-- Caller-visible callbacks fired by the animator.  The shell
(`DiscogsRoulette.tsx`) supplies every callback prop, so firing is modelled
unconditionally where the code guards only on callback presence. -/
inductive WheelEvent where
  | rouletteComplete
  | stopComplete (stoppedIndex : ℤ)
  | tonearmEngageStart
  deriving DecidableEq

/-- The locals captured by the `animate` closure created in the spin effect
(lines 806-932): the precomputed target and duration, the mode, and —
crucially — the `rotation` React state value the closure closed over.
`setRotation` during the spin uses functional updates, so this captured
value stays equal to the rotation at spin start for the session's whole
lifetime. -/
structure SpinSession where
  rouletteMode : Bool
  targetRotation : ℝ
  spinDuration : ℝ
  capturedRotation : ℝ

/-- The spin effect body (lines 806-854): guard
`mustStartSpinning && !isSpinning.current && data.length > 0`, then record
session start, precompute the roulette target, and kick the tonearm engage
animation when none is running.  Returns the updated refs/state, the
`animate` closure's captured session (if a spin started), and the events
fired synchronously (the engage start). -/
noncomputable def spinStartEffect (mustStartSpinning : Bool)
    (dataLen prizeNumber : ℕ) (isRouletteMode : Bool) (r1 r2 now : ℝ)
    (s : WheelState) : WheelState × Option SpinSession × List WheelEvent :=
  if mustStartSpinning = true ∧ s.isSpinning = false ∧ 0 < dataLen then
    let s1 : WheelState :=
      { s with isSpinning := true, startTime := now,
               startRotation := s.rotation, tonearmDownTriggered := false,
               lastTime := now }
    let sess : SpinSession :=
      { rouletteMode := isRouletteMode
        targetRotation :=
          if isRouletteMode then
            VinylRoulette.targetRotation dataLen prizeNumber s.rotation r1
          else 0
        spinDuration := if isRouletteMode then rouletteSpinDuration r2 else 4
        capturedRotation := s.rotation }
    if s1.tonearmAnimating = false then
      ({ s1 with tonearmAnimating := true, tonearmStartTime := now },
        some sess, [WheelEvent.tonearmEngageStart])
    else (s1, some sess, [])
  else (s, none, [])

/-- One `animate` frame in roulette mode (lines 856-877): eased
interpolation toward the target while `elapsed < spinDuration`, then an
exact snap to `targetRotation`, `isSpinning := false` and the
`onRouletteComplete` callback. -/
noncomputable def rouletteFrame (sess : SpinSession) (currentTime : ℝ)
    (s : WheelState) : WheelState × List WheelEvent :=
  if s.isSpinning = false then (s, [])
  else
    let elapsed := (currentTime - s.startTime) / 1000
    if elapsed < sess.spinDuration then
      let t := elapsed / sess.spinDuration
      let easeInOut : ℝ :=
        if t < 1 / 2 then 4 * t ^ 3 else 1 - (-2 * t + 2) ^ 3 / 2
      ({ s with rotation :=
          s.startRotation + (sess.targetRotation - s.startRotation) * easeInOut },
        [])
    else
      ({ s with rotation := sess.targetRotation, isSpinning := false },
        [WheelEvent.rouletteComplete])

/-- One `animate` frame in cosmetic (continuous) mode (lines 879-928):
free integration at the selected RPM, a quadratic-ease-out damping window
of 2 s once a stop was requested, and on completion the resolution of the
stopped index.  `speed45` models `spinSpeedRef.current === '45'` (the code
tests `=== '33' ? 33 : 45`).

Line 911 reads the `rotation` identifier, which inside this closure is the
React state value captured when the spin effect ran — `setRotation` used
functional updates throughout, so the closure's copy is the spin-start
rotation, modelled by `sess.capturedRotation`, not the current
`s.rotation`. -/
noncomputable def cosmeticFrame (sess : SpinSession) (dataLen : ℕ)
    (shouldStop speed45 : Bool) (currentTime : ℝ) (s : WheelState) :
    WheelState × List WheelEvent :=
  if s.isSpinning = false then (s, [])
  else
    let s1 := if shouldStop = true ∧ s.isStoppingManually = false then
        { s with isStoppingManually := true, stopStartTime := currentTime }
      else s
    if s1.isStoppingManually = true then
      let stopElapsed := (currentTime - s1.stopStartTime) / 1000
      if stopElapsed < 2 then
        let t := stopElapsed / 2
        let easeOut : ℝ := 1 - (1 - t) ^ 2
        let currentSpeed : ℝ := if speed45 then 45 else 33
        let rpm := currentSpeed * (1 - easeOut)
        let rotationsPerSecond := rpm / 60
        let deltaTime := (currentTime - s1.lastTime) / 1000
        ({ s1 with
            rotation :=
              s1.rotation + rotationsPerSecond * (2 * Real.pi) * deltaTime,
            lastTime := currentTime }, [])
      else
        let s2 := { s1 with isSpinning := false, isStoppingManually := false }
        if 0 < dataLen then
          (s2, [WheelEvent.stopComplete (resolveIndex dataLen sess.capturedRotation)])
        else (s2, [])
    else
      let currentSpeed : ℝ := if speed45 then 45 else 33
      let rotationsPerSecond := currentSpeed / 60
      let deltaTime := (currentTime - s1.lastTime) / 1000
      ({ s1 with
          rotation :=
            s1.rotation + rotationsPerSecond * (2 * Real.pi) * deltaTime,
          lastTime := currentTime }, [])

/-- One animation frame of a session, in either mode. -/
inductive FrameInput where
  | roulette (currentTime : ℝ)
  | cosmetic (dataLen : ℕ) (shouldStop speed45 : Bool) (currentTime : ℝ)

noncomputable def runFrame (sess : SpinSession) :
    FrameInput → WheelState → WheelState × List WheelEvent
  | FrameInput.roulette t, s => rouletteFrame sess t s
  | FrameInput.cosmetic n st sp t, s => cosmeticFrame sess n st sp t s

/-- Run a list of animation frames, collecting the callbacks they fire. -/
noncomputable def runFrames (sess : SpinSession) :
    List FrameInput → WheelState → WheelState × List WheelEvent
  | [], s => (s, [])
  | f :: fs, s =>
    let r := runFrame sess f s
    let rest := runFrames sess fs r.1
    (rest.1, r.2 ++ rest.2)

/-- All callbacks fired during one spin session: those of the start effect
followed by those of every rendered frame. -/
noncomputable def sessionEvents (mustStartSpinning : Bool)
    (dataLen prizeNumber : ℕ) (isRouletteMode : Bool) (r1 r2 now : ℝ)
    (frames : List FrameInput) (s : WheelState) : List WheelEvent :=
  let r := spinStartEffect mustStartSpinning dataLen prizeNumber
    isRouletteMode r1 r2 now s
  r.2.2 ++ (match r.2.1 with
    | some sess => (runFrames sess frames r.1).2
    | none => [])

/-- C4: a spin-start request (determinate or continuous) issued while a
session is in progress is a hard no-op — the state is unchanged, no session
is created, and no callback fires. -/
theorem start_while_spinning_noop (mustStartSpinning : Bool)
    (dataLen prizeNumber : ℕ) (isRouletteMode : Bool) (r1 r2 now : ℝ)
    (s : WheelState) (h : s.isSpinning = true) :
    spinStartEffect mustStartSpinning dataLen prizeNumber isRouletteMode
      r1 r2 now s = (s, none, []) := by
  rw [spinStartEffect, if_neg]
  rintro ⟨-, h2, -⟩
  rw [h] at h2
  exact Bool.noConfusion h2

/-- A concrete state with a spin in progress, for the C4 witness. -/
noncomputable def spinningStateEx : WheelState :=
  { rotation := 1, isSpinning := true, isStoppingManually := false,
    startRotation := 0, startTime := 0, lastTime := 0, stopStartTime := 0,
    tonearmAngle := 0, tonearmAnimating := false, tonearmStartTime := 0,
    tonearmDownTriggered := false }

/-- Witness for C4: a second determinate-spin request against a spinning
state changes nothing. -/
theorem start_while_spinning_noop_witness :
    spinningStateEx.isSpinning = true ∧
      spinStartEffect true 5 2 true 0 0 100 spinningStateEx
        = (spinningStateEx, none, []) :=
  ⟨rfl, start_while_spinning_noop true 5 2 true 0 0 100 spinningStateEx rfl⟩

/-- C8: a spin-start request with an empty segment list, or while a spin is
already in progress, is a silent no-op: the (total) effect function returns
the state unchanged, creates no session, and fires no callback — it cannot
throw. -/
theorem invalid_start_noop (mustStartSpinning : Bool)
    (dataLen prizeNumber : ℕ) (isRouletteMode : Bool) (r1 r2 now : ℝ)
    (s : WheelState) (h : dataLen = 0 ∨ s.isSpinning = true) :
    spinStartEffect mustStartSpinning dataLen prizeNumber isRouletteMode
      r1 r2 now s = (s, none, []) := by
  rw [spinStartEffect, if_neg]
  rintro ⟨-, h2, h3⟩
  rcases h with h | h
  · rw [h] at h3
    exact Nat.lt_irrefl 0 h3
  · rw [h] at h2
    exact Bool.noConfusion h2

/-- A concrete idle state, shared by several witnesses. -/
noncomputable def idleStateEx : WheelState :=
  { rotation := 0, isSpinning := false, isStoppingManually := false,
    startRotation := 0, startTime := 0, lastTime := 0, stopStartTime := 0,
    tonearmAngle := 0, tonearmAnimating := false, tonearmStartTime := 0,
    tonearmDownTriggered := false }

/-- Witness for C8: a start request with zero segments changes nothing. -/
theorem invalid_start_noop_witness :
    ((0 : ℕ) = 0 ∨ idleStateEx.isSpinning = true) ∧
      spinStartEffect true 0 0 true 0 0 0 idleStateEx
        = (idleStateEx, none, []) :=
  ⟨Or.inl rfl,
    invalid_start_noop true 0 0 true 0 0 0 idleStateEx (Or.inl rfl)⟩

theorem rouletteFrame_no_engage (sess : SpinSession) (t : ℝ)
    (s : WheelState) :
    WheelEvent.tonearmEngageStart ∉ (rouletteFrame sess t s).2 := by
  simp only [rouletteFrame, apply_ite Prod.snd]
  split_ifs <;> simp

theorem cosmeticFrame_no_engage (sess : SpinSession) (n : ℕ)
    (st sp : Bool) (t : ℝ) (s : WheelState) :
    WheelEvent.tonearmEngageStart ∉ (cosmeticFrame sess n st sp t s).2 := by
  simp only [cosmeticFrame, apply_ite Prod.snd]
  split_ifs <;> simp

theorem runFrames_no_engage (sess : SpinSession) (frames : List FrameInput)
    (s : WheelState) :
    WheelEvent.tonearmEngageStart ∉ (runFrames sess frames s).2 := by
  induction frames generalizing s with
  | nil => simp [runFrames]
  | cons f fs ih =>
    rw [runFrames]
    simp only [List.mem_append]
    rintro (h | h)
    · cases f with
      | roulette t => exact rouletteFrame_no_engage sess t s h
      | cosmetic n st sp t => exact cosmeticFrame_no_engage sess n st sp t s h
    · exact ih _ h

/-- C7: across one spin session — one start request followed by any number
of animation frames in either mode — the tonearm engage transition starts
at most once.  (Only the start effect can begin the engage animation;
frames never do.) -/
theorem tonearm_engage_at_most_once (mustStartSpinning : Bool)
    (dataLen prizeNumber : ℕ) (isRouletteMode : Bool) (r1 r2 now : ℝ)
    (frames : List FrameInput) (s : WheelState) :
    (sessionEvents mustStartSpinning dataLen prizeNumber isRouletteMode
      r1 r2 now frames s).count WheelEvent.tonearmEngageStart ≤ 1 := by
  rw [sessionEvents]
  simp only [List.count_append]
  have hstart : ((spinStartEffect mustStartSpinning dataLen prizeNumber
      isRouletteMode r1 r2 now s).2.2).count WheelEvent.tonearmEngageStart
        ≤ 1 := by
    simp only [spinStartEffect, apply_ite Prod.snd]
    split_ifs <;> simp
  have hframes : ∀ (o : Option SpinSession) (s1 : WheelState),
      ((match o with
        | some sess => (runFrames sess frames s1).2
        | none => ([] : List WheelEvent))).count
          WheelEvent.tonearmEngageStart = 0 := by
    rintro (_ | sess) s1
    · simp
    · exact List.count_eq_zero.mpr (runFrames_no_engage sess frames s1)
  rw [hframes]
  omega

/-! ## C2: the manual-stop completion index

At line 911 the completion branch reads the `rotation` React state value
that the `animate` closure captured when the spin effect ran — the
spin-start rotation — even though every frame advanced the real rotation
through functional `setRotation` updates.  The code's own comment says
"Get current rotation"; the resolved index is therefore computed from the
start rotation, not from the rotation at which the wheel stopped.  The
trace below exhibits the divergence. -/

theorem resolveIndex_four_zero : resolveIndex 4 0 = 0 := by
  have h2pi := two_pi_pos
  have hpi := Real.pi_pos
  rw [resolveIndex, needleAngle]
  rw [posMod_eq_self h2pi le_rfl h2pi, sub_zero]
  rw [posMod_eq_self h2pi (by positivity) (by linarith)]
  have harc : arcSize 4 = Real.pi / 2 := by
    rw [arcSize]
    push_cast
    ring
  rw [harc]
  have hdiv : Real.pi / 6 / (Real.pi / 2) = 1 / 3 := by
    field_simp
    ring
  rw [hdiv]
  have hfl : ⌊(1 / 3 : ℝ)⌋ = 0 := by norm_num [Int.floor_eq_iff]
  rw [hfl]
  decide

theorem resolveIndex_four_pi : resolveIndex 4 Real.pi = 2 := by
  have h2pi := two_pi_pos
  have hpi := Real.pi_pos
  rw [resolveIndex, needleAngle]
  rw [posMod_eq_self h2pi (le_of_lt hpi) (by linarith)]
  rw [posMod_eq_fract h2pi]
  have hq : (Real.pi / 6 - Real.pi) / (2 * Real.pi) = -5 / 12 := by
    rw [div_eq_iff (ne_of_gt h2pi)]
    ring
  rw [hq]
  have hfl : ⌊(-5 / 12 : ℝ)⌋ = -1 := by norm_num [Int.floor_eq_iff]
  have hfr : Int.fract (-5 / 12 : ℝ) = 7 / 12 := by
    rw [Int.fract, hfl]
    norm_num
  rw [hfr]
  have harc : arcSize 4 = Real.pi / 2 := by
    rw [arcSize]
    push_cast
    ring
  rw [harc]
  have hdiv : 2 * Real.pi * (7 / 12) / (Real.pi / 2) = 7 / 3 := by
    field_simp
    ring
  rw [hdiv]
  have hfl2 : ⌊(7 / 3 : ℝ)⌋ = 2 := by norm_num [Int.floor_eq_iff]
  rw [hfl2]
  decide

/-- The session a continuous spin started at time 0 from `idleStateEx`
captures: cosmetic mode, and closure-captured rotation 0. -/
noncomputable def c2Sess : SpinSession :=
  { rouletteMode := false, targetRotation := 0, spinDuration := 4,
    capturedRotation := 0 }

/-- State right after the continuous spin start at time 0. -/
noncomputable def c2S1 : WheelState :=
  { rotation := 0, isSpinning := true, isStoppingManually := false,
    startRotation := 0, startTime := 0, lastTime := 0, stopStartTime := 0,
    tonearmAngle := 0, tonearmAnimating := true, tonearmStartTime := 0,
    tonearmDownTriggered := false }

theorem c2_start_eq :
    spinStartEffect true 4 0 false 0 0 0 idleStateEx
      = (c2S1, some c2Sess, [WheelEvent.tonearmEngageStart]) := rfl

/-- The stop-request frame at t = 10000/11 ms: it enters the damping
window (`stopElapsed = 0`, full RPM) and, with a frame delta of 10/11 s at
33 RPM, advances the rotation by exactly π radians. -/
noncomputable def c2S3 : WheelState :=
  (cosmeticFrame c2Sess 4 true false (10000 / 11) c2S1).1

theorem c2S3_eq :
    c2S3 = { c2S1 with
              rotation := Real.pi
              lastTime := 10000 / 11
              isStoppingManually := true
              stopStartTime := 10000 / 11 } := by
  simp only [cosmeticFrame, c2S3, c2S1]
  norm_num
  ring

/-- The completion frame, 2000 ms after the stop request. -/
noncomputable def c2Final : WheelState × List WheelEvent :=
  cosmeticFrame c2Sess 4 true false (10000 / 11 + 2000) c2S3

/-- C2 fails on the code: in this run the wheel actually stops at rotation
π — whose under-needle index is 2 — but `onStopComplete` fires with the
index resolved from the stale closure-captured spin-start rotation 0,
namely index 0. -/
theorem manual_stop_reports_stale_index :
    c2Final.2 = [WheelEvent.stopComplete 0] ∧
      c2Final.1.rotation = Real.pi ∧
      resolveIndex 4 Real.pi = 2 := by
  have hc : ¬(((10000 / 11 + 2000 : ℝ) - 10000 / 11) / 1000 < 2) := by
    norm_num
  have hfin : c2Final =
      ({ c2S1 with
          rotation := Real.pi
          lastTime := 10000 / 11
          stopStartTime := 10000 / 11
          isSpinning := false
          isStoppingManually := false },
        [WheelEvent.stopComplete (resolveIndex 4 0)]) := by
    simp only [cosmeticFrame, c2Final, c2S3_eq, c2S1, c2Sess]
    norm_num
  rw [hfin]
  refine ⟨?_, rfl, resolveIndex_four_pi⟩
  rw [resolveIndex_four_zero]

/-! ## Filter-transition "nudge" (lines 935-959)

`animateFilterSpin` only ever calls `setRotation`; it has no callback at
all, so a nudge cannot fire any completion event by construction. -/

/-- The closure locals of `animateFilterSpin`. -/
structure NudgeSession where
  startRot : ℝ
  targetRot : ℝ
  startTime : ℝ

/-- The angle `randomDegrees * Math.PI / 180` with
`randomDegrees = 30 + Math.random() * 90` (lines 940-941). -/
noncomputable def nudgeAngle (r : ℝ) : ℝ := (30 + r * 90) * Real.pi / 180

/-- The filter-transition effect (lines 936-943): guarded by
`filterTransition && !isSpinning.current`; captures the current rotation
and the randomized small target. -/
noncomputable def filterTransitionEffect (filterTransition : Bool)
    (r now : ℝ) (s : WheelState) : Option NudgeSession :=
  if filterTransition = true ∧ s.isSpinning = false then
    some { startRot := s.rotation,
           targetRot := s.rotation + nudgeAngle r,
           startTime := now }
  else none

/-- One `animateFilterSpin` frame (lines 945-956): cubic ease-out over a
1500 ms window, then an exact snap to the target. -/
noncomputable def filterSpinFrame (ns : NudgeSession) (currentTime : ℝ)
    (s : WheelState) : WheelState :=
  let elapsed := currentTime - ns.startTime
  if elapsed < 1500 then
    let t := elapsed / 1500
    let easeOut : ℝ := 1 - (1 - t) ^ 3
    { s with rotation := ns.startRot + (ns.targetRot - ns.startRot) * easeOut }
  else
    { s with rotation := ns.targetRot }

/-- C9: a nudge triggered while idle uses a randomized angle in
[30°, 120°) — i.e. [π/6, 2π/3) radians — captures the current rotation as
its start, ends its 1500 ms animation exactly at start + angle (and being
a pure `setRotation` loop it fires no callback), while a nudge triggered
during a spin does nothing. -/
theorem nudge_spec (r now : ℝ) (s sBusy : WheelState) (hr0 : 0 ≤ r)
    (hr1 : r < 1) (hs : s.isSpinning = false)
    (hb : sBusy.isSpinning = true) :
    (Real.pi / 6 ≤ nudgeAngle r ∧ nudgeAngle r < 2 * Real.pi / 3) ∧
    filterTransitionEffect true r now s =
      some { startRot := s.rotation,
             targetRot := s.rotation + nudgeAngle r, startTime := now } ∧
    (∀ st : WheelState,
      (filterSpinFrame
        { startRot := s.rotation, targetRot := s.rotation + nudgeAngle r,
          startTime := now } (now + 1500) st).rotation
        = s.rotation + nudgeAngle r) ∧
    filterTransitionEffect true r now sBusy = none := by
  have hpi := Real.pi_pos
  refine ⟨⟨?_, ?_⟩, ?_, ?_, ?_⟩
  · rw [nudgeAngle]
    nlinarith
  · rw [nudgeAngle]
    nlinarith
  · rw [filterTransitionEffect, if_pos ⟨rfl, hs⟩]
  · intro st
    rw [filterSpinFrame]
    norm_num
  · rw [filterTransitionEffect, if_neg]
    rintro ⟨-, h2⟩
    rw [hb] at h2
    exact Bool.noConfusion h2

/-- Witness for C9 at `r = 0` (a 30° nudge). -/
theorem nudge_spec_witness :
    (0 ≤ (0 : ℝ) ∧ (0 : ℝ) < 1 ∧ idleStateEx.isSpinning = false ∧
      spinningStateEx.isSpinning = true) ∧
    ((Real.pi / 6 ≤ nudgeAngle 0 ∧ nudgeAngle 0 < 2 * Real.pi / 3) ∧
      filterTransitionEffect true 0 5 idleStateEx =
        some { startRot := idleStateEx.rotation,
               targetRot := idleStateEx.rotation + nudgeAngle 0,
               startTime := 5 } ∧
      (∀ st : WheelState,
        (filterSpinFrame
          { startRot := idleStateEx.rotation,
            targetRot := idleStateEx.rotation + nudgeAngle 0,
            startTime := 5 } (5 + 1500) st).rotation
          = idleStateEx.rotation + nudgeAngle 0) ∧
      filterTransitionEffect true 0 5 spinningStateEx = none) :=
  ⟨⟨le_refl 0, by norm_num, rfl, rfl⟩,
    nudge_spec 0 5 idleStateEx spinningStateEx (le_refl 0) (by norm_num)
      rfl rfl⟩

/-! ## C3: rotation continuity across spin sessions

Frame-level facts used to run whole sessions: which fields each frame kind
preserves, what an idle frame does, and what the completion frames do. -/

theorem rouletteFrame_idle (sess : SpinSession) (t : ℝ) (s : WheelState)
    (hs : s.isSpinning = false) : (rouletteFrame sess t s).1 = s := by
  simp [rouletteFrame, hs]

theorem rouletteFrame_preserves (sess : SpinSession) (t : ℝ)
    (s : WheelState) :
    (rouletteFrame sess t s).1.startTime = s.startTime ∧
    (rouletteFrame sess t s).1.startRotation = s.startRotation ∧
    (rouletteFrame sess t s).1.isStoppingManually = s.isStoppingManually := by
  simp only [rouletteFrame, apply_ite Prod.fst]
  split_ifs <;> simp

theorem rouletteFrame_complete (sess : SpinSession) (t : ℝ) (s : WheelState)
    (hs : s.isSpinning = true)
    (ht : ¬ ((t - s.startTime) / 1000 < sess.spinDuration)) :
    (rouletteFrame sess t s).1 =
      { s with rotation := sess.targetRotation, isSpinning := false } := by
  simp [rouletteFrame, hs, ht]

theorem cosmeticFrame_idle (sess : SpinSession) (n : ℕ) (st sp : Bool)
    (t : ℝ) (s : WheelState) (hs : s.isSpinning = false) :
    (cosmeticFrame sess n st sp t s).1 = s := by
  simp [cosmeticFrame, hs]

theorem cosmeticFrame_preserves (sess : SpinSession) (n : ℕ) (st sp : Bool)
    (t : ℝ) (s : WheelState) :
    (cosmeticFrame sess n st sp t s).1.startTime = s.startTime ∧
    (cosmeticFrame sess n st sp t s).1.startRotation = s.startRotation := by
  simp only [cosmeticFrame, apply_ite Prod.fst]
  split_ifs <;> simp

/-- A frame with no stop request on a freely spinning state only advances
the rotation and the frame clock. -/
theorem cosmeticFrame_free (sess : SpinSession) (n : ℕ) (sp : Bool)
    (t : ℝ) (s : WheelState) (hs : s.isSpinning = true)
    (hstop : s.isStoppingManually = false) :
    (cosmeticFrame sess n false sp t s).1 =
      { s with
          rotation := s.rotation +
            (if sp = true then (45 : ℝ) else 33) / 60 * (2 * Real.pi) *
              ((t - s.lastTime) / 1000)
          lastTime := t } := by
  simp [cosmeticFrame, hs, hstop]

/-- The frame that first sees the stop request: it enters the damping
window (`stopElapsed = 0 < 2`) and stays spinning. -/
theorem cosmeticFrame_stop_request (sess : SpinSession) (n : ℕ) (sp : Bool)
    (t : ℝ) (s : WheelState) (hs : s.isSpinning = true)
    (hstop : s.isStoppingManually = false) :
    (cosmeticFrame sess n true sp t s).1.isSpinning = true ∧
    (cosmeticFrame sess n true sp t s).1.isStoppingManually = true ∧
    (cosmeticFrame sess n true sp t s).1.stopStartTime = t := by
  have hc : ((t - t) / 1000 : ℝ) < 2 := by norm_num
  simp [cosmeticFrame, hs, hstop, hc]

/-- Any frame on a state already in the damping window either keeps
damping (same `stopStartTime`) or completes, clearing both flags. -/
theorem cosmeticFrame_stopping (sess : SpinSession) (n : ℕ) (st sp : Bool)
    (t : ℝ) (s : WheelState) (hs : s.isSpinning = true)
    (hstop : s.isStoppingManually = true) :
    ((cosmeticFrame sess n st sp t s).1.isSpinning = true ∧
        (cosmeticFrame sess n st sp t s).1.isStoppingManually = true ∨
      (cosmeticFrame sess n st sp t s).1.isSpinning = false ∧
        (cosmeticFrame sess n st sp t s).1.isStoppingManually = false) ∧
    (cosmeticFrame sess n st sp t s).1.stopStartTime = s.stopStartTime := by
  by_cases hc : (t - s.stopStartTime) / 1000 < 2
  · constructor
    · left
      constructor <;> simp [cosmeticFrame, hs, hstop, hc]
    · simp [cosmeticFrame, hs, hstop, hc]
  · constructor
    · right
      by_cases hn : 0 < n <;>
        constructor <;> simp [cosmeticFrame, hs, hstop, hc, hn]
    · by_cases hn : 0 < n <;> simp [cosmeticFrame, hs, hstop, hc, hn]

theorem filterSpinFrame_preserves (ns : NudgeSession) (t : ℝ)
    (s : WheelState) :
    (filterSpinFrame ns t s).isSpinning = s.isSpinning ∧
    (filterSpinFrame ns t s).isStoppingManually = s.isStoppingManually := by
  simp only [filterSpinFrame]
  split_ifs <;> simp

theorem filterSpinFrame_final (ns : NudgeSession) (s : WheelState) :
    (filterSpinFrame ns (ns.startTime + 1500) s).rotation = ns.targetRot := by
  rw [filterSpinFrame]
  norm_num

/-- Successful spin starts: what the effect returns when its guard holds. -/
theorem spinStartEffect_success {mustStartSpinning : Bool}
    {dataLen prizeNumber : ℕ} {isRouletteMode : Bool} {r1 r2 now : ℝ}
    {s : WheelState} (hm : mustStartSpinning = true)
    (hs : s.isSpinning = false) (hd : 0 < dataLen) :
    ∃ s1 sess evs,
      spinStartEffect mustStartSpinning dataLen prizeNumber isRouletteMode
        r1 r2 now s = (s1, some sess, evs) ∧
      s1.rotation = s.rotation ∧
      s1.isSpinning = true ∧
      s1.isStoppingManually = s.isStoppingManually ∧
      s1.startRotation = s.rotation ∧
      s1.startTime = now ∧
      s1.lastTime = now ∧
      sess.spinDuration =
        (if isRouletteMode = true then rouletteSpinDuration r2 else 4) ∧
      sess.capturedRotation = s.rotation := by
  simp only [spinStartEffect]
  rw [if_pos ⟨hm, hs, hd⟩]
  split_ifs <;> exact ⟨_, _, _, rfl, rfl, rfl, rfl, rfl, rfl, rfl, rfl, rfl⟩

/-- One complete spin session, as driven by the shell: a determinate spin
run to completion, a continuous spin with a manual stop run to completion,
or a filter nudge run to completion.  Frame-time lists are arbitrary; the
final frame of each kind is scheduled at (or after) the session's natural
end. -/
inductive SessionReq where
  | roulette (dataLen prizeNumber : ℕ) (startNow r1 r2 : ℝ)
      (frames : List ℝ)
  | cosmetic (dataLen : ℕ) (speed45 : Bool) (startNow : ℝ)
      (freeFrames : List ℝ) (stopTime : ℝ) (midFrames : List ℝ)
  | nudge (startNow r : ℝ) (frames : List ℝ)

def reqDataLen : SessionReq → ℕ
  | SessionReq.roulette dataLen _ _ _ _ _ => dataLen
  | SessionReq.cosmetic dataLen _ _ _ _ _ => dataLen
  | SessionReq.nudge _ _ _ => 1

noncomputable def foldRouletteFrames (sess : SpinSession) (times : List ℝ)
    (s : WheelState) : WheelState :=
  times.foldl (fun st t => (rouletteFrame sess t st).1) s

noncomputable def foldCosmeticFrames (sess : SpinSession) (dataLen : ℕ)
    (shouldStop speed45 : Bool) (times : List ℝ) (s : WheelState) :
    WheelState :=
  times.foldl (fun st t => (cosmeticFrame sess dataLen shouldStop speed45 t st).1) s

noncomputable def foldNudgeFrames (ns : NudgeSession) (times : List ℝ)
    (s : WheelState) : WheelState :=
  times.foldl (fun st t => filterSpinFrame ns t st) s

/-- Run one session to completion.  Returns the final state together with
the pair (captured start rotation, end rotation) the session observed. -/
noncomputable def runSession (s : WheelState) :
    SessionReq → WheelState × (ℝ × ℝ)
  | SessionReq.roulette dataLen prizeNumber startNow r1 r2 frames =>
    match spinStartEffect true dataLen prizeNumber true r1 r2 startNow s with
    | (s1, some sess, _) =>
      let s2 := foldRouletteFrames sess frames s1
      let s3 := (rouletteFrame sess (startNow + 1000 * sess.spinDuration) s2).1
      (s3, (s1.startRotation, s3.rotation))
    | (s1, none, _) => (s1, (s1.rotation, s1.rotation))
  | SessionReq.cosmetic dataLen speed45 startNow freeFrames stopTime midFrames =>
    match spinStartEffect true dataLen 0 false 0 0 startNow s with
    | (s1, some sess, _) =>
      let s2 := foldCosmeticFrames sess dataLen false speed45 freeFrames s1
      let s3 := (cosmeticFrame sess dataLen true speed45 stopTime s2).1
      let s4 := foldCosmeticFrames sess dataLen true speed45 midFrames s3
      let s5 := (cosmeticFrame sess dataLen true speed45
        (s4.stopStartTime + 2000) s4).1
      (s5, (s1.startRotation, s5.rotation))
    | (s1, none, _) => (s1, (s1.rotation, s1.rotation))
  | SessionReq.nudge startNow r frames =>
    match filterTransitionEffect true r startNow s with
    | some ns =>
      let s2 := foldNudgeFrames ns frames s
      let s3 := filterSpinFrame ns (startNow + 1500) s2
      (s3, (ns.startRot, s3.rotation))
    | none => (s, (s.rotation, s.rotation))

noncomputable def runSessions :
    WheelState → List SessionReq → WheelState × List (ℝ × ℝ)
  | s, [] => (s, [])
  | s, req :: reqs =>
    let r := runSession s req
    let rest := runSessions r.1 reqs
    (rest.1, r.2 :: rest.2)

theorem foldRouletteFrames_preserves (sess : SpinSession) (times : List ℝ) :
    ∀ s : WheelState,
      (foldRouletteFrames sess times s).startTime = s.startTime ∧
      (foldRouletteFrames sess times s).isStoppingManually =
        s.isStoppingManually := by
  induction times with
  | nil => intro s; exact ⟨rfl, rfl⟩
  | cons t ts ih =>
    intro s
    have h1 := rouletteFrame_preserves sess t s
    have h2 := ih (rouletteFrame sess t s).1
    rw [foldRouletteFrames] at h2 ⊢
    simp only [List.foldl_cons]
    exact ⟨h2.1.trans h1.1, h2.2.trans h1.2.2⟩

theorem foldCosmeticFrames_free (sess : SpinSession) (dataLen : ℕ)
    (sp : Bool) (times : List ℝ) :
    ∀ s : WheelState, s.isSpinning = true → s.isStoppingManually = false →
      (foldCosmeticFrames sess dataLen false sp times s).isSpinning = true ∧
      (foldCosmeticFrames sess dataLen false sp times s).isStoppingManually
        = false := by
  induction times with
  | nil => intro s h1 h2; exact ⟨h1, h2⟩
  | cons t ts ih =>
    intro s h1 h2
    have hf := cosmeticFrame_free sess dataLen sp t s h1 h2
    simp only [foldCosmeticFrames, List.foldl_cons] at ih ⊢
    apply ih
    · rw [hf]
      exact h1
    · rw [hf]
      exact h2

/-- During the damping window, any further frames keep the state either
still damping or fully stopped, and never touch `stopStartTime`. -/
theorem foldCosmeticFrames_stopping (sess : SpinSession) (dataLen : ℕ)
    (st sp : Bool) (times : List ℝ) :
    ∀ s : WheelState,
      (s.isSpinning = true ∧ s.isStoppingManually = true) ∨
        (s.isSpinning = false ∧ s.isStoppingManually = false) →
      (((foldCosmeticFrames sess dataLen st sp times s).isSpinning = true ∧
        (foldCosmeticFrames sess dataLen st sp times s).isStoppingManually
          = true) ∨
       ((foldCosmeticFrames sess dataLen st sp times s).isSpinning = false ∧
        (foldCosmeticFrames sess dataLen st sp times s).isStoppingManually
          = false)) ∧
      (foldCosmeticFrames sess dataLen st sp times s).stopStartTime
        = s.stopStartTime := by
  induction times with
  | nil =>
    intro s hR
    exact ⟨hR, rfl⟩
  | cons t ts ih =>
    intro s hR
    simp only [foldCosmeticFrames, List.foldl_cons] at ih ⊢
    have hstep : (((cosmeticFrame sess dataLen st sp t s).1.isSpinning = true ∧
          (cosmeticFrame sess dataLen st sp t s).1.isStoppingManually = true) ∨
        ((cosmeticFrame sess dataLen st sp t s).1.isSpinning = false ∧
          (cosmeticFrame sess dataLen st sp t s).1.isStoppingManually = false)) ∧
        (cosmeticFrame sess dataLen st sp t s).1.stopStartTime
          = s.stopStartTime := by
      rcases hR with ⟨h1, h2⟩ | ⟨h1, h2⟩
      · exact cosmeticFrame_stopping sess dataLen st sp t s h1 h2
      · rw [cosmeticFrame_idle sess dataLen st sp t s h1]
        exact ⟨Or.inr ⟨h1, h2⟩, rfl⟩
    obtain ⟨k1, k2⟩ := ih ((cosmeticFrame sess dataLen st sp t s).1) hstep.1
    exact ⟨k1, k2.trans hstep.2⟩

theorem foldNudgeFrames_preserves (ns : NudgeSession) (times : List ℝ) :
    ∀ s : WheelState,
      (foldNudgeFrames ns times s).isSpinning = s.isSpinning ∧
      (foldNudgeFrames ns times s).isStoppingManually =
        s.isStoppingManually := by
  induction times with
  | nil => intro s; exact ⟨rfl, rfl⟩
  | cons t ts ih =>
    intro s
    have h1 := filterSpinFrame_preserves ns t s
    have h2 := ih (filterSpinFrame ns t s)
    rw [foldNudgeFrames] at h2 ⊢
    simp only [List.foldl_cons]
    exact ⟨h2.1.trans h1.1, h2.2.trans h1.2⟩

theorem cosmeticFrame_completes (sess : SpinSession) (n : ℕ) (st sp : Bool)
    (t : ℝ) (s : WheelState) (hs : s.isSpinning = true)
    (hstop : s.isStoppingManually = true)
    (ht : ¬ ((t - s.stopStartTime) / 1000 < 2)) :
    (cosmeticFrame sess n st sp t s).1.isSpinning = false ∧
    (cosmeticFrame sess n st sp t s).1.isStoppingManually = false := by
  by_cases hn : 0 < n <;> constructor <;>
    simp [cosmeticFrame, hs, hstop, ht, hn]

/-- One session run from a quiescent state: the recorded start is the
rotation the session found, the recorded end is the rotation it left
behind, and the machine is quiescent again. -/
theorem runSession_spec (s : WheelState) (req : SessionReq)
    (h1 : s.isSpinning = false) (h2 : s.isStoppingManually = false)
    (hd : 0 < reqDataLen req) :
    (runSession s req).2.1 = s.rotation ∧
    (runSession s req).2.2 = (runSession s req).1.rotation ∧
    (runSession s req).1.isSpinning = false ∧
    (runSession s req).1.isStoppingManually = false := by
  cases req with
  | roulette dataLen prizeNumber startNow r1 r2 frames =>
    obtain ⟨s1, sess, evs, heq, hrot, hspin, hstopm, hstartR, hstartT,
      hlast, hdur, hcap⟩ :=
      @spinStartEffect_success true dataLen prizeNumber true r1 r2
        startNow s rfl h1 (show 0 < dataLen from hd)
    simp only [runSession]
    rw [heq]
    dsimp only
    have hpres := foldRouletteFrames_preserves sess frames s1
    set s2 := foldRouletteFrames sess frames s1 with hs2
    have hs2time : s2.startTime = startNow := hpres.1.trans hstartT
    have hs2stop : s2.isStoppingManually = false :=
      hpres.2.trans (hstopm.trans h2)
    by_cases hsp : s2.isSpinning = false
    · rw [rouletteFrame_idle sess _ s2 hsp]
      exact ⟨hstartR, rfl, hsp, hs2stop⟩
    · have hsp' : s2.isSpinning = true := by
        simpa using hsp
      have helapsed : (startNow + 1000 * sess.spinDuration - s2.startTime)
          / 1000 = sess.spinDuration := by
        rw [hs2time]
        ring
      have ht : ¬ ((startNow + 1000 * sess.spinDuration - s2.startTime)
          / 1000 < sess.spinDuration) := by
        rw [helapsed]
        exact lt_irrefl _
      rw [rouletteFrame_complete sess _ s2 hsp' ht]
      exact ⟨hstartR, rfl, rfl, hs2stop⟩
  | cosmetic dataLen speed45 startNow freeFrames stopTime midFrames =>
    obtain ⟨s1, sess, evs, heq, hrot, hspin, hstopm, hstartR, hstartT,
      hlast, hdur, hcap⟩ :=
      @spinStartEffect_success true dataLen 0 false 0 0 startNow s
        rfl h1 (show 0 < dataLen from hd)
    simp only [runSession]
    rw [heq]
    dsimp only
    have hfree := foldCosmeticFrames_free sess dataLen speed45 freeFrames s1
      hspin (hstopm.trans h2)
    set s2 := foldCosmeticFrames sess dataLen false speed45 freeFrames s1
      with hs2
    have hreq := cosmeticFrame_stop_request sess dataLen speed45 stopTime s2
      hfree.1 hfree.2
    set s3 := (cosmeticFrame sess dataLen true speed45 stopTime s2).1
      with hs3
    have hmid := foldCosmeticFrames_stopping sess dataLen true speed45
      midFrames s3 (Or.inl ⟨hreq.1, hreq.2.1⟩)
    set s4 := foldCosmeticFrames sess dataLen true speed45 midFrames s3
      with hs4
    have helapsed : (s4.stopStartTime + 2000 - s4.stopStartTime) / 1000
        = (2 : ℝ) := by ring
    have ht : ¬ ((s4.stopStartTime + 2000 - s4.stopStartTime) / 1000
        < (2 : ℝ)) := by
      rw [helapsed]
      exact lt_irrefl _
    rcases hmid.1 with ⟨g1, g2⟩ | ⟨g1, g2⟩
    · have hcomp := cosmeticFrame_completes sess dataLen true speed45
        (s4.stopStartTime + 2000) s4 g1 g2 ht
      exact ⟨hstartR, rfl, hcomp.1, hcomp.2⟩
    · rw [cosmeticFrame_idle sess dataLen true speed45 _ s4 g1]
      exact ⟨hstartR, rfl, g1, g2⟩
  | nudge startNow r frames =>
    have heq : filterTransitionEffect true r startNow s =
        some { startRot := s.rotation,
               targetRot := s.rotation + nudgeAngle r,
               startTime := startNow } := by
      rw [filterTransitionEffect, if_pos ⟨rfl, h1⟩]
    simp only [runSession]
    rw [heq]
    dsimp only
    have hfold := foldNudgeFrames_preserves
      { startRot := s.rotation, targetRot := s.rotation + nudgeAngle r,
        startTime := startNow } frames s
    have hfin := filterSpinFrame_preserves
      { startRot := s.rotation, targetRot := s.rotation + nudgeAngle r,
        startTime := startNow } (startNow + 1500)
      (foldNudgeFrames
        { startRot := s.rotation, targetRot := s.rotation + nudgeAngle r,
          startTime := startNow } frames s)
    exact ⟨rfl, rfl, hfin.1.trans (hfold.1.trans h1),
      hfin.2.trans (hfold.2.trans h2)⟩

theorem runSessions_length (s : WheelState) (reqs : List SessionReq) :
    ((runSessions s reqs).2).length = reqs.length := by
  induction reqs generalizing s with
  | nil => rfl
  | cons req reqs ih =>
    simp only [runSessions, List.length_cons]
    rw [ih]

/-- C3: for any sequence of spin sessions (determinate, continuous with
manual stop, or nudge) run from a quiescent state, the start rotation each
session captures equals the end rotation the previous session left: no
jump between sessions. -/
theorem spin_sequence_continuity (reqs : List SessionReq)
    (s0 : WheelState) (hidle : s0.isSpinning = false)
    (hstop : s0.isStoppingManually = false)
    (hd : ∀ req ∈ reqs, 0 < reqDataLen req) :
    ∀ i : ℕ, i + 1 < ((runSessions s0 reqs).2).length →
      (((runSessions s0 reqs).2).getD (i + 1) (0, 0)).1 =
        (((runSessions s0 reqs).2).getD i (0, 0)).2 := by
  induction reqs generalizing s0 with
  | nil =>
    intro i hi
    simp [runSessions] at hi
  | cons req reqs ih =>
    intro i hi
    obtain ⟨hp1, hp2, hq1, hq2⟩ := runSession_spec s0 req hidle hstop
      (hd req (List.mem_cons_self req reqs))
    have hdtail : ∀ r ∈ reqs, 0 < reqDataLen r :=
      fun r hr => hd r (List.mem_cons_of_mem _ hr)
    simp only [runSessions] at hi ⊢
    cases i with
    | zero =>
      cases reqs with
      | nil =>
        simp [runSessions] at hi
      | cons reqB reqsB =>
        obtain ⟨hb1, hb2, hb3, hb4⟩ :=
          runSession_spec (runSession s0 req).1 reqB hq1 hq2
            (hdtail reqB (List.mem_cons_self reqB reqsB))
        simp only [runSessions, List.getD_cons_succ, List.getD_cons_zero]
        rw [hb1, hp2]
    | succ j =>
      simp only [List.getD_cons_succ]
      apply ih (runSession s0 req).1 hq1 hq2 hdtail j
      simp only [List.length_cons] at hi
      omega

/-- Witness for C3: two successive nudge sessions from the idle state. -/
theorem spin_sequence_continuity_witness :
    (idleStateEx.isSpinning = false ∧
      idleStateEx.isStoppingManually = false) ∧
    (((runSessions idleStateEx
        [SessionReq.nudge 0 0 [], SessionReq.nudge 2000 0 []]).2).getD 1
          (0, 0)).1 =
      (((runSessions idleStateEx
        [SessionReq.nudge 0 0 [], SessionReq.nudge 2000 0 []]).2).getD 0
          (0, 0)).2 :=
  ⟨⟨rfl, rfl⟩,
    spin_sequence_continuity
      [SessionReq.nudge 0 0 [], SessionReq.nudge 2000 0 []] idleStateEx
      rfl rfl
      (by
        intro req hr
        simp only [List.mem_cons, List.not_mem_nil, or_false] at hr
        rcases hr with rfl | rfl <;> norm_num [reqDataLen])
      0
      (by rw [runSessions_length]; norm_num)⟩

/-! ## C5: tonearm reset (lines 121-141 and 962-989)

`animateBack` hardcodes its start angle to `playingAngle` (line 969): a
reset triggered while the arm is already at rest does not start from the
current angle, so it visibly jumps the arm toward the playing position and
eases it back — reset at rest is not idempotent.  The only guard is
`!tonearmAnimating.current`. -/

/-- Model of `Math.atan2` for finite arguments (signed zeros aside). -/
noncomputable def atan2 (y x : ℝ) : ℝ :=
  if 0 < x then Real.arctan (y / x)
  else if x < 0 then
    (if 0 ≤ y then Real.arctan (y / x) + Real.pi
     else Real.arctan (y / x) - Real.pi)
  else
    (if 0 < y then Real.pi / 2 else if y < 0 then -(Real.pi / 2) else 0)

theorem atan2_gt_half_pi {y x : ℝ} (hx : x < 0) (hy : 0 ≤ y) :
    Real.pi / 2 < atan2 y x := by
  rw [atan2, if_neg (by linarith), if_pos hx, if_pos hy]
  have := Real.neg_pi_div_two_lt_arctan (y / x)
  linarith

structure TonearmAngles where
  playingAngle : ℝ
  restAngle : ℝ
  pivotX : ℝ
  pivotY : ℝ

/-- Source function `getTonearmAngles` (lines 121-141): pure function of canvas size and
outer border width. -/
noncomputable def getTonearmAngles (canvasSize outerBorderWidth : ℝ) :
    TonearmAngles :=
  let scale := canvasSize / 600
  let centerX := canvasSize / 2
  let centerY := canvasSize / 2
  let scaledBorderWidth := outerBorderWidth * scale
  let radius := min centerX centerY - scaledBorderWidth - 10 * scale
  let pivotX := canvasSize + 40 * scale
  let pivotY := centerY - radius * 0.60
  let targetAngle := Real.pi / 6
  let targetX := centerX + Real.cos targetAngle * (radius - 20 * scale)
  let targetY := centerY + Real.sin targetAngle * (radius - 20 * scale)
  { playingAngle := atan2 (targetY - pivotY) (targetX - pivotX)
    restAngle := Real.pi / 2
    pivotX := pivotX
    pivotY := pivotY }

/-- The tonearm-reset effect (lines 962-971): guarded only by
`!tonearmAnimating`; when it fires it marks the animation as running and
hands the `animateBack` closure the pair (playingAngle, restAngle) — the
start is the playing angle regardless of the arm's current angle. -/
noncomputable def resetTonearmEffect (resetTonearm : Bool)
    (canvasSize outerBorderWidth now : ℝ) (s : WheelState) :
    WheelState × Option (ℝ × ℝ) :=
  if resetTonearm = true ∧ s.tonearmAnimating = false then
    ({ s with tonearmAnimating := true, tonearmStartTime := now },
      some ((getTonearmAngles canvasSize outerBorderWidth).playingAngle,
            (getTonearmAngles canvasSize outerBorderWidth).restAngle))
  else (s, none)

/-- One `animateBack` frame (lines 972-987): quadratic ease-out over
0.5 s from `startAngle` to `endAngle`, then snap and clear the flag. -/
noncomputable def animateBackFrame (startAngle endAngle currentTime : ℝ)
    (s : WheelState) : WheelState :=
  let elapsed := (currentTime - s.tonearmStartTime) / 1000
  if elapsed < 0.5 then
    let t := elapsed / 0.5
    let easeOut : ℝ := 1 - (1 - t) ^ 2
    { s with tonearmAngle := startAngle + (endAngle - startAngle) * easeOut }
  else
    { s with tonearmAngle := endAngle, tonearmAnimating := false }

/-- At the 600 × 600 layout with border width 5, the tonearm pivot sits to
the right of the groove target, so `Math.atan2` lands in the second
quadrant. -/
theorem c5_angles : ∃ y x : ℝ,
    (getTonearmAngles 600 5).playingAngle = atan2 y x ∧ x < 0 ∧ 0 ≤ y := by
  refine ⟨_, _, rfl, ?_, ?_⟩
  · rw [Real.cos_pi_div_six]
    have hs3 := Real.sq_sqrt (show (0 : ℝ) ≤ 3 by norm_num)
    have hs3' := Real.sqrt_nonneg (3 : ℝ)
    norm_num
    nlinarith
  · rw [Real.sin_pi_div_six]
    norm_num

theorem c5_playing_ne_rest :
    (getTonearmAngles 600 5).playingAngle ≠
      (getTonearmAngles 600 5).restAngle := by
  obtain ⟨y, x, heq, hx, hy⟩ := c5_angles
  have h1 := atan2_gt_half_pi hx hy
  have hrest : (getTonearmAngles 600 5).restAngle = Real.pi / 2 := rfl
  rw [heq, hrest]
  exact ne_of_gt h1

/-- Tonearm at rest, idle. -/
noncomputable def c5Rest : WheelState :=
  { idleStateEx with tonearmAngle := (getTonearmAngles 600 5).restAngle }

/-- First reset trigger at t = 0, on the state already at rest. -/
noncomputable def c5S1 : WheelState := (resetTonearmEffect true 600 5 0 c5Rest).1

/-- The first reset animation's completion frame at t = 500 ms brings the
machine back to exactly the at-rest state. -/
noncomputable def c5S2 : WheelState :=
  animateBackFrame (getTonearmAngles 600 5).playingAngle
    (getTonearmAngles 600 5).restAngle 500 c5S1

theorem c5S2_eq : c5S2 = c5Rest := by
  have hc : ¬ (((500 : ℝ) - 0) / 1000 < 0.5) := by norm_num
  simp [c5S2, animateBackFrame, c5S1, resetTonearmEffect, c5Rest,
    idleStateEx, hc]
  norm_num

/-- Second reset trigger at t = 1000 ms, again at rest. -/
noncomputable def c5S3 : WheelState :=
  (resetTonearmEffect true 600 5 1000 c5S2).1

theorem c5S3_eq :
    c5S3 = { c5Rest with
              tonearmAnimating := true
              tonearmStartTime := 1000 } := by
  simp [c5S3, resetTonearmEffect, c5S2_eq, c5Rest, idleStateEx]

/-- A frame of the second reset animation, 250 ms in. -/
noncomputable def c5S4 : WheelState :=
  animateBackFrame (getTonearmAngles 600 5).playingAngle
    (getTonearmAngles 600 5).restAngle 1250 c5S3

/-- C5 fails on the code: with the tonearm at rest and no animation
running, a second reset trigger does start another `animateBack` run, and
its mid-animation frame shows the arm away from the rest angle (it jumped
toward the playing angle).  So reset-at-rest is visibly not idempotent. -/
theorem reset_at_rest_not_idempotent :
    c5S2.tonearmAngle = (getTonearmAngles 600 5).restAngle ∧
    c5S2.tonearmAnimating = false ∧
    (resetTonearmEffect true 600 5 1000 c5S2).2 ≠ none ∧
    c5S4.tonearmAngle ≠ (getTonearmAngles 600 5).restAngle := by
  refine ⟨by rw [c5S2_eq]; rfl, by rw [c5S2_eq]; rfl, ?_, ?_⟩
  · rw [c5S2_eq]
    simp [resetTonearmEffect, c5Rest, idleStateEx]
  · have hc : (((1250 : ℝ) - 1000) / 1000) < 0.5 := by norm_num
    have h4 : c5S4.tonearmAngle =
        (getTonearmAngles 600 5).playingAngle +
          ((getTonearmAngles 600 5).restAngle -
            (getTonearmAngles 600 5).playingAngle) * (3 / 4) := by
      simp only [c5S4, animateBackFrame, c5S3_eq]
      rw [if_pos hc]
      norm_num
    rw [h4]
    intro hcontr
    apply c5_playing_ne_rest
    linarith

/-- C5 amended: a reset trigger is a no-op exactly while a tonearm
transition is already animating; that `tonearmAnimating` guard is the only
idempotence the code provides (a reset at rest with no animation running
restarts the ease from the playing angle, as the counterexample shows). -/
theorem tonearm_reset_noop_while_animating (resetTonearm : Bool)
    (canvasSize outerBorderWidth now : ℝ) (s : WheelState)
    (h : s.tonearmAnimating = true) :
    resetTonearmEffect resetTonearm canvasSize outerBorderWidth now s
      = (s, none) := by
  rw [resetTonearmEffect, if_neg]
  rintro ⟨-, h2⟩
  rw [h] at h2
  exact Bool.noConfusion h2

/-- A state with a tonearm transition in flight. -/
noncomputable def c5AnimState : WheelState :=
  { idleStateEx with tonearmAnimating := true }

theorem tonearm_reset_noop_while_animating_witness :
    c5AnimState.tonearmAnimating = true ∧
      resetTonearmEffect true 600 5 7 c5AnimState = (c5AnimState, none) :=
  ⟨rfl, tonearm_reset_noop_while_animating true 600 5 7 c5AnimState rfl⟩

/-! ## C6 / C10: canvas hit-testing (`handleCanvasClick`, lines 992-1058)

The shell supplies all four callback props, so the `&& onX` presence
checks are identically true and are dropped.  Coordinates are
canvas-space, after the client-rect/DPR conversion of lines 1010-1014. -/

structure ButtonPos where
  x : ℝ
  y : ℝ
  radius : ℝ

structure ButtonPositions where
  speed : ButtonPos
  stop : ButtonPos
  start : ButtonPos

inductive ClickIntent where
  | speedToggle
  | stopClick
  | startClick
  | wheelClick
  deriving DecidableEq

/-- The render pass's top padding (line 271): 15 % of the canvas size. -/
noncomputable def tonearmPaddingTop (canvasSize : ℝ) : ℝ := canvasSize * 0.15

/-- Disc center used by the render pass (lines 280-281). -/
noncomputable def drawCenterX (canvasSize : ℝ) : ℝ := canvasSize / 2

noncomputable def drawCenterY (canvasSize : ℝ) : ℝ :=
  canvasSize / 2 + tonearmPaddingTop canvasSize

/-- Disc center used by the wheel-click hit test (lines 1047-1048) — note
the missing top-padding offset. -/
noncomputable def hitCenterX (canvasSize : ℝ) : ℝ := canvasSize / 2

noncomputable def hitCenterY (canvasSize : ℝ) : ℝ := canvasSize / 2

/-- Source function `handleCanvasClick` (lines 1016-1057): the three button circles are
tested in the order speed, stop, start — each branch also requires its
enablement condition — then the disc circle. -/
noncomputable def handleCanvasClick (btns : ButtonPositions)
    (mustStartSpinning isStoppingManually : Bool)
    (canvasSize outerBorderWidth x y : ℝ) : Option ClickIntent :=
  if Real.sqrt ((x - btns.speed.x) ^ 2 + (y - btns.speed.y) ^ 2)
      ≤ btns.speed.radius ∧ mustStartSpinning = false then
    some ClickIntent.speedToggle
  else if Real.sqrt ((x - btns.stop.x) ^ 2 + (y - btns.stop.y) ^ 2)
      ≤ btns.stop.radius ∧ mustStartSpinning = true ∧
      isStoppingManually = false then
    some ClickIntent.stopClick
  else if Real.sqrt ((x - btns.start.x) ^ 2 + (y - btns.start.y) ^ 2)
      ≤ btns.start.radius ∧ mustStartSpinning = false then
    some ClickIntent.startClick
  else
    let scale := canvasSize / 600
    let radius := min (hitCenterX canvasSize) (hitCenterY canvasSize)
      - outerBorderWidth * scale - 10 * scale
    if Real.sqrt ((x - hitCenterX canvasSize) ^ 2 +
        (y - hitCenterY canvasSize) ^ 2) ≤ radius ∧
        mustStartSpinning = false then
      some ClickIntent.wheelClick
    else none

theorem sqrt_gt_of_sq {a c : ℝ} (hc : 0 ≤ c) (h : c ^ 2 < a) :
    ¬ (Real.sqrt a ≤ c) := by
  intro hle
  have h0 : 0 ≤ a := le_of_lt (lt_of_le_of_lt (sq_nonneg c) h)
  nlinarith [Real.sq_sqrt h0, Real.sqrt_nonneg a]

theorem sqrt_le_of_sq {a c : ℝ} (hc : 0 ≤ c) (h0 : 0 ≤ a)
    (h : a ≤ c ^ 2) : Real.sqrt a ≤ c := by
  nlinarith [Real.sq_sqrt h0, Real.sqrt_nonneg a]

/-- A degenerate layout in which the stop button's region lies inside the
disc region. -/
noncomputable def c6Btns : ButtonPositions :=
  { speed := { x := 1000, y := 1000, radius := 1 }
    stop := { x := 100, y := 100, radius := 50 }
    start := { x := 2000, y := 2000, radius := 1 } }

/-- C6 fails on the code: the release point (100, 100) lies inside the
stop button's circular region, but with no spin in progress the stop
branch's enablement check fails and the event falls through to the disc —
it resolves to a wheel click, not to the button. -/
theorem hit_inside_button_resolves_to_wheel :
    Real.sqrt ((100 - c6Btns.stop.x) ^ 2 + (100 - c6Btns.stop.y) ^ 2)
      ≤ c6Btns.stop.radius ∧
    handleCanvasClick c6Btns false false 600 5 100 100
      = some ClickIntent.wheelClick := by
  constructor
  · simp only [c6Btns]
    norm_num [Real.sqrt_zero]
  · simp only [handleCanvasClick, c6Btns, hitCenterX, hitCenterY]
    norm_num [min_self]
    intro hgt
    exact absurd hgt
      (not_lt.mpr (sqrt_le_of_sq (by norm_num) (by norm_num) (by norm_num)))

/-- C6 amended: the priority order speed, stop, start holds for *enabled*
buttons — a release inside an enabled button's region resolves to the
highest-priority such button and never to the disc; only a release inside
a disabled button's region can fall through (to a later button or the
disc). -/
theorem hit_test_enabled_button_priority (btns : ButtonPositions)
    (mustStartSpinning isStoppingManually : Bool)
    (canvasSize outerBorderWidth x y : ℝ) :
    ((Real.sqrt ((x - btns.speed.x) ^ 2 + (y - btns.speed.y) ^ 2)
        ≤ btns.speed.radius ∧ mustStartSpinning = false) →
      handleCanvasClick btns mustStartSpinning isStoppingManually
        canvasSize outerBorderWidth x y = some ClickIntent.speedToggle) ∧
    (¬ (Real.sqrt ((x - btns.speed.x) ^ 2 + (y - btns.speed.y) ^ 2)
        ≤ btns.speed.radius ∧ mustStartSpinning = false) →
      (Real.sqrt ((x - btns.stop.x) ^ 2 + (y - btns.stop.y) ^ 2)
        ≤ btns.stop.radius ∧ mustStartSpinning = true ∧
        isStoppingManually = false) →
      handleCanvasClick btns mustStartSpinning isStoppingManually
        canvasSize outerBorderWidth x y = some ClickIntent.stopClick) ∧
    (¬ (Real.sqrt ((x - btns.speed.x) ^ 2 + (y - btns.speed.y) ^ 2)
        ≤ btns.speed.radius ∧ mustStartSpinning = false) →
      ¬ (Real.sqrt ((x - btns.stop.x) ^ 2 + (y - btns.stop.y) ^ 2)
        ≤ btns.stop.radius ∧ mustStartSpinning = true ∧
        isStoppingManually = false) →
      (Real.sqrt ((x - btns.start.x) ^ 2 + (y - btns.start.y) ^ 2)
        ≤ btns.start.radius ∧ mustStartSpinning = false) →
      handleCanvasClick btns mustStartSpinning isStoppingManually
        canvasSize outerBorderWidth x y = some ClickIntent.startClick) ∧
    (((Real.sqrt ((x - btns.speed.x) ^ 2 + (y - btns.speed.y) ^ 2)
        ≤ btns.speed.radius ∧ mustStartSpinning = false) ∨
      (Real.sqrt ((x - btns.stop.x) ^ 2 + (y - btns.stop.y) ^ 2)
        ≤ btns.stop.radius ∧ mustStartSpinning = true ∧
        isStoppingManually = false) ∨
      (Real.sqrt ((x - btns.start.x) ^ 2 + (y - btns.start.y) ^ 2)
        ≤ btns.start.radius ∧ mustStartSpinning = false)) →
      handleCanvasClick btns mustStartSpinning isStoppingManually
        canvasSize outerBorderWidth x y ≠ some ClickIntent.wheelClick ∧
      handleCanvasClick btns mustStartSpinning isStoppingManually
        canvasSize outerBorderWidth x y ≠ none) := by
  refine ⟨?_, ?_, ?_, ?_⟩
  · intro h
    rw [handleCanvasClick, if_pos h]
  · intro hn h
    rw [handleCanvasClick, if_neg hn, if_pos h]
  · intro hn1 hn2 h
    rw [handleCanvasClick, if_neg hn1, if_neg hn2, if_pos h]
  · intro h
    rw [handleCanvasClick]
    rcases h with h | h | h
    · rw [if_pos h]
      exact ⟨by simp, by simp⟩
    · by_cases h1 : Real.sqrt ((x - btns.speed.x) ^ 2 +
          (y - btns.speed.y) ^ 2) ≤ btns.speed.radius ∧
          mustStartSpinning = false
      · rw [if_pos h1]
        exact ⟨by simp, by simp⟩
      · rw [if_neg h1, if_pos h]
        exact ⟨by simp, by simp⟩
    · by_cases h1 : Real.sqrt ((x - btns.speed.x) ^ 2 +
          (y - btns.speed.y) ^ 2) ≤ btns.speed.radius ∧
          mustStartSpinning = false
      · rw [if_pos h1]
        exact ⟨by simp, by simp⟩
      · rw [if_neg h1]
        by_cases h2 : Real.sqrt ((x - btns.stop.x) ^ 2 +
            (y - btns.stop.y) ^ 2) ≤ btns.stop.radius ∧
            mustStartSpinning = true ∧ isStoppingManually = false
        · rw [if_pos h2]
          exact ⟨by simp, by simp⟩
        · rw [if_neg h2, if_pos h]
          exact ⟨by simp, by simp⟩

/-- Layout for the C6-amended witness: the release point is the center of
the (enabled) speed button. -/
noncomputable def c6WBtns : ButtonPositions :=
  { speed := { x := 0, y := 0, radius := 5 }
    stop := { x := 1000, y := 1000, radius := 1 }
    start := { x := 2000, y := 2000, radius := 1 } }

theorem hit_test_enabled_button_priority_witness :
    handleCanvasClick c6WBtns false false 600 5 0 0
      = some ClickIntent.speedToggle :=
  (hit_test_enabled_button_priority c6WBtns false false 600 5 0 0).1
    (by
      constructor
      · simp only [c6WBtns]
        norm_num [Real.sqrt_zero]
      · rfl)

/-- C10: a wheel-click intent fires iff none of the three button branches
fired, no spin is in progress, and the release point lies within the disc
radius of the point (canvasSize/2, canvasSize/2).  That hit-test center
omits the 0.15·canvasSize top padding the render pass applies, so for any
positive canvas size the clickable disc sits strictly above the drawn
disc. -/
theorem wheel_click_center_shifted (btns : ButtonPositions)
    (mustStartSpinning isStoppingManually : Bool)
    (canvasSize outerBorderWidth x y : ℝ) (hcs : 0 < canvasSize) :
    (handleCanvasClick btns mustStartSpinning isStoppingManually
        canvasSize outerBorderWidth x y = some ClickIntent.wheelClick ↔
      ¬ (Real.sqrt ((x - btns.speed.x) ^ 2 + (y - btns.speed.y) ^ 2)
          ≤ btns.speed.radius ∧ mustStartSpinning = false) ∧
      ¬ (Real.sqrt ((x - btns.stop.x) ^ 2 + (y - btns.stop.y) ^ 2)
          ≤ btns.stop.radius ∧ mustStartSpinning = true ∧
          isStoppingManually = false) ∧
      ¬ (Real.sqrt ((x - btns.start.x) ^ 2 + (y - btns.start.y) ^ 2)
          ≤ btns.start.radius ∧ mustStartSpinning = false) ∧
      mustStartSpinning = false ∧
      Real.sqrt ((x - hitCenterX canvasSize) ^ 2 +
          (y - hitCenterY canvasSize) ^ 2) ≤
        min (hitCenterX canvasSize) (hitCenterY canvasSize)
          - outerBorderWidth * (canvasSize / 600)
          - 10 * (canvasSize / 600)) ∧
    drawCenterX canvasSize = hitCenterX canvasSize ∧
    drawCenterY canvasSize = hitCenterY canvasSize + 0.15 * canvasSize ∧
    hitCenterY canvasSize < drawCenterY canvasSize := by
  refine ⟨?_, rfl, ?_, ?_⟩
  · rw [handleCanvasClick]
    by_cases h1 : Real.sqrt ((x - btns.speed.x) ^ 2 +
        (y - btns.speed.y) ^ 2) ≤ btns.speed.radius ∧
        mustStartSpinning = false
    · rw [if_pos h1]
      simp [h1]
    · rw [if_neg h1]
      by_cases h2 : Real.sqrt ((x - btns.stop.x) ^ 2 +
          (y - btns.stop.y) ^ 2) ≤ btns.stop.radius ∧
          mustStartSpinning = true ∧ isStoppingManually = false
      · rw [if_pos h2]
        simp [h1, h2]
      · rw [if_neg h2]
        by_cases h3 : Real.sqrt ((x - btns.start.x) ^ 2 +
            (y - btns.start.y) ^ 2) ≤ btns.start.radius ∧
            mustStartSpinning = false
        · rw [if_pos h3]
          simp [h1, h2, h3]
        · rw [if_neg h3]
          by_cases h4 : Real.sqrt ((x - hitCenterX canvasSize) ^ 2 +
              (y - hitCenterY canvasSize) ^ 2) ≤
              min (hitCenterX canvasSize) (hitCenterY canvasSize)
                - outerBorderWidth * (canvasSize / 600)
                - 10 * (canvasSize / 600) ∧
              mustStartSpinning = false
          · rw [if_pos h4]
            constructor
            · intro _
              exact ⟨h1, h2, h3, h4.2, h4.1⟩
            · intro _
              rfl
          · rw [if_neg h4]
            simp only [reduceCtorEq, false_iff]
            rintro ⟨-, -, -, hA, hB⟩
            exact h4 ⟨hB, hA⟩
  · rw [drawCenterY, hitCenterY, tonearmPaddingTop]
    ring
  · rw [drawCenterY, hitCenterY, tonearmPaddingTop]
    nlinarith

/-- Witness for C10 at a 600 px canvas: the clickable disc center sits
strictly above the drawn disc center. -/
theorem wheel_click_center_shifted_witness :
    hitCenterY 600 < drawCenterY 600 :=
  (wheel_click_center_shifted c6WBtns false false 600 5 300 300
    (by norm_num)).2.2.2

end VinylRoulette
